import Mathlib

/-!
Verification of the keras-tuner trial-orchestration core.

Shallow embedding of:
  * `kerastuner/engine/hypertuner.py` — model identity digest
    (`__compute_model_id`), trial sampling (`get_random_instance`),
    best-metric bookkeeping (`record_results`);
  * `kerastuner/engine/instance.py` — `Instance.fit` and
    `Instance.record_results` metric aggregation;
  * `kerastuner/engine/oracle.py` — `Oracle.update_space`;
  * `kerastuner/tuners/multiple_executions_tuner.py` —
    `MultipleExecutionsTuner.__init__` and `run_trial`;
  * `kerastuner/utils.py` — `compute_max_batch_size`.

Machine integers are embedded as `Nat` with explicit reduction mod `2 ^ 64`
where the 64-bit hash arithmetic overflows; Python floats are embedded as
`Rat`; fallible Python code returns `Except`.
-/

namespace KerasTuner

/-- First-match association-list lookup: the semantics of indexing a Python
dict whose entries are kept in insertion order. -/
def alookup {α : Type} (l : List (String × α)) (k : String) : Option α :=
  match l with
  | [] => none
  | (k', v) :: rest => if k' = k then some v else alookup rest k

/-! ## XXH64 (the `xxhash` library's `xxh64`, seed 0)

`HyperTuner.__compute_model_id` hashes `str(model.get_config())` with the
external `xxhash` library's 64-bit hash and takes its hex digest.  The
algorithm below is XXH64 with seed 0 over a byte string, on `Nat` reduced
mod `2 ^ 64`. -/

/-- `2 ^ 64`, the modulus of the 64-bit hash arithmetic. -/
def M64 : Nat := 18446744073709551616

def PRIME1 : Nat := 11400714785074694791
def PRIME2 : Nat := 14029467366897019727
def PRIME3 : Nat := 1609587929392839161
def PRIME4 : Nat := 9650029242287828579
def PRIME5 : Nat := 2870177450012600261

/-- 64-bit left rotation of `x` by `r` (for `x < M64`, `0 < r < 64`). -/
def rotl64 (x r : Nat) : Nat :=
  (x * 2 ^ r % M64 + x / 2 ^ (64 - r)) % M64

/-- XXH64 accumulator round. -/
def xxRound (acc lane : Nat) : Nat :=
  rotl64 ((acc + lane * PRIME2) % M64) 31 * PRIME1 % M64

/-- XXH64 merge of one stripe accumulator into the converged hash. -/
def xxMergeRound (h v : Nat) : Nat :=
  ((h ^^^ xxRound 0 v) * PRIME1 + PRIME4) % M64

/-- Little-endian integer value of a byte list. -/
def leVal (bytes : List Nat) : Nat :=
  bytes.foldr (fun b acc => b + 256 * acc) 0

/-- Consume 32-byte stripes, updating the four accumulators; returns the
final accumulators and the remaining (< 32) bytes. -/
def consumeStripes (v1 v2 v3 v4 : Nat) :
    List Nat → (Nat × Nat × Nat × Nat) × List Nat
  | b0 :: b1 :: b2 :: b3 :: b4 :: b5 :: b6 :: b7 ::
    b8 :: b9 :: b10 :: b11 :: b12 :: b13 :: b14 :: b15 ::
    b16 :: b17 :: b18 :: b19 :: b20 :: b21 :: b22 :: b23 ::
    b24 :: b25 :: b26 :: b27 :: b28 :: b29 :: b30 :: b31 :: rest =>
      consumeStripes
        (xxRound v1 (leVal [b0, b1, b2, b3, b4, b5, b6, b7]))
        (xxRound v2 (leVal [b8, b9, b10, b11, b12, b13, b14, b15]))
        (xxRound v3 (leVal [b16, b17, b18, b19, b20, b21, b22, b23]))
        (xxRound v4 (leVal [b24, b25, b26, b27, b28, b29, b30, b31]))
        rest
  | bytes => ((v1, v2, v3, v4), bytes)

/-- Tail loop over remaining 8-byte words. -/
def tail8 (h : Nat) : List Nat → Nat × List Nat
  | b0 :: b1 :: b2 :: b3 :: b4 :: b5 :: b6 :: b7 :: rest =>
      tail8
        ((rotl64 (h ^^^ xxRound 0 (leVal [b0, b1, b2, b3, b4, b5, b6, b7])) 27
            * PRIME1 + PRIME4) % M64)
        rest
  | bytes => (h, bytes)

/-- Tail loop over remaining 4-byte words. -/
def tail4 (h : Nat) : List Nat → Nat × List Nat
  | b0 :: b1 :: b2 :: b3 :: rest =>
      tail4
        ((rotl64 (h ^^^ leVal [b0, b1, b2, b3] * PRIME1 % M64) 23
            * PRIME2 + PRIME3) % M64)
        rest
  | bytes => (h, bytes)

/-- Tail loop over remaining single bytes. -/
def tail1 (h : Nat) (bytes : List Nat) : Nat :=
  bytes.foldl (fun h b => rotl64 (h ^^^ b * PRIME5 % M64) 11 * PRIME1 % M64) h

/-- XXH64 final avalanche. -/
def avalanche (h : Nat) : Nat :=
  let h1 := (h ^^^ h / 2 ^ 33) * PRIME2 % M64
  let h2 := (h1 ^^^ h1 / 2 ^ 29) * PRIME3 % M64
  h2 ^^^ h2 / 2 ^ 32

/-- XXH64 with seed 0 over a byte string. -/
def xxh64 (bytes : List Nat) : Nat :=
  let len := bytes.length
  let hrest :=
    if 32 ≤ len then
      let s := consumeStripes ((PRIME1 + PRIME2) % M64) PRIME2 0 (M64 - PRIME1) bytes
      let v := s.1
      let h0 := (rotl64 v.1 1 + rotl64 v.2.1 7 + rotl64 v.2.2.1 12 + rotl64 v.2.2.2 18) % M64
      (xxMergeRound (xxMergeRound (xxMergeRound (xxMergeRound h0 v.1) v.2.1) v.2.2.1) v.2.2.2,
       s.2)
    else (PRIME5, bytes)
  let h1 := (hrest.1 + len) % M64
  let t8 := tail8 h1 hrest.2
  let t4 := tail4 t8.1 t8.2
  avalanche (tail1 t4.1 t4.2)

/-- One hex digit (lowercase). -/
def hexChar (d : Nat) : Char :=
  if d < 10 then Char.ofNat (48 + d) else Char.ofNat (87 + d)

/-- 16-character zero-padded lowercase hex rendering of a 64-bit value:
`xxhash`'s `hexdigest()`. -/
def hexdigest64 (n : Nat) : String :=
  String.mk (((List.range 16).map (fun i => hexChar (n / 16 ^ (15 - i) % 16))))

/-- UTF-8 bytes of one character. -/
def utf8Bytes (ch : Char) : List Nat :=
  let n := ch.toNat
  if n < 128 then [n]
  else if n < 2048 then [192 + n / 64, 128 + n % 64]
  else if n < 65536 then [224 + n / 4096, 128 + n / 64 % 64, 128 + n % 64]
  else [240 + n / 262144, 128 + n / 4096 % 64, 128 + n / 64 % 64, 128 + n % 64]

/-- UTF-8 byte string of a string. -/
def strBytes (s : String) : List Nat :=
  s.data.foldr (fun c acc => utf8Bytes c ++ acc) []

/-! ## Model configuration and identity digest

`model.get_config()` is a Python dict (insertion-ordered mapping from
string keys to values; integer values suffice for the properties below).
`HyperTuner.__compute_model_id` is `xxh64(str(model.get_config())).hexdigest()`. -/

/-- A model configuration: a Python dict in insertion order. -/
def PyConfig : Type := List (String × Int)

/-- Integer-valued dict lookup. -/
def clookup : PyConfig → String → Option Int := alookup

/-- Python `==` on dicts: same keys with equal values, irrespective of
insertion order. -/
def pyDictEq (a b : PyConfig) : Bool :=
  a.length == b.length
    && a.all (fun p => clookup b p.1 == some p.2)
    && b.all (fun p => clookup a p.1 == some p.2)

/-- Python apostrophe character used by `repr` of a string key. -/
def pyQuote : String := String.mk [Char.ofNat 39]

/-- Python `str` of the configuration dict, a brace-delimited, comma-separated rendering of the
entries in insertion order with quoted keys. -/
def pyStr (c : PyConfig) : String :=
  "\x7b"
    ++ String.intercalate ", "
        (c.map (fun p => pyQuote ++ p.1 ++ pyQuote ++ ": " ++ toString p.2))
    ++ "\x7d"

/-- `HyperTuner.__compute_model_id(model)`:
`xxh64(str(model.get_config())).hexdigest()`. -/
def compute_model_id (config : PyConfig) : String :=
  hexdigest64 (xxh64 (strBytes (pyStr config)))

/-! ## `HyperTuner.get_random_instance`

The loop body's inputs are the successive outcomes of `self.model_fn()`
(either an exception, caught by the bare `except`, or a model carrying a
configuration).  The loop is embedded as structural recursion over the
list of outcomes supplied: an empty remainder means the loop is still
running (it has not returned within that many iterations). -/

/-- Outcome of one `self.model_fn()` call: the builder raised, or produced
a model with the given configuration. -/
inductive BuildOutcome : Type
  | failure : BuildOutcome
  | success : PyConfig → BuildOutcome

/-- The `HyperTuner` fields read and written by `get_random_instance`. -/
structure TunerState : Type where
  max_fail_streak : Nat
  invalid_models : Nat
  collisions : Nat
  instances : List String
  current_instance_idx : Option String

/-- `HyperTuner.get_random_instance`, one constructor case per loop
iteration.  Result: the final field state, paired with `none` when the
supplied outcomes are exhausted with the loop still running, and
`some r` when the call returns — `r = none` is Python `None` (the
`invalid_models >= max_fail_streak` branch; the code has no `raise` on any
path of this function), `r = some idx` is the freshly registered instance. -/
def get_random_instance (st : TunerState) :
    List BuildOutcome → TunerState × Option (Option String)
  | [] => (st, none)
  | BuildOutcome.failure :: rest =>
      let st' := { st with invalid_models := st.invalid_models + 1 }
      if st.max_fail_streak ≤ st'.invalid_models then (st', some none)
      else get_random_instance st' rest
  | BuildOutcome.success cfg :: rest =>
      let idx := compute_model_id cfg
      if idx ∈ st.instances then
        get_random_instance { st with collisions := st.collisions + 1 } rest
      else
        ({ st with instances := st.instances ++ [idx],
                   current_instance_idx := some idx },
         some (some idx))

/-! ## `HyperTuner.record_results` — best-so-far stats bookkeeping

`self.stats` is a dict seeded with every key-metric name, embedded as a
total function on names.  `self.key_metrics` is a list of
(name, direction) pairs whose directions were validated to `min`/`max` in
`__init__`.  The loop walks the key metrics; for a name present in the
instance results it folds the result value into the stats with `min` or
`max` per the declared direction.  The trailing `report.append` line
references `best`/`res_val` even when the name was absent: on the first
such iteration they are unbound and the loop dies with a `NameError`,
which the embedding renders by stopping the fold there. -/

/-- A key-metric direction (validated to `min`/`max` in
`HyperTuner.__init__`). -/
inductive Direction : Type
  | dmin : Direction
  | dmax : Direction
deriving DecidableEq

/-- Pointwise update of a dict embedded as a total function. -/
def fupd (stats : String → Rat) (k : String) (v : Rat) : String → Rat :=
  fun n => if n = k then v else stats n

/-- The key-metric loop of `HyperTuner.record_results`, acting on
`self.stats`.  `bound` records whether `best`/`res_val` have been assigned
by an earlier iteration; an iteration whose metric is absent from
`results` while they are unbound raises `NameError` at the
`report.append` line, aborting the loop with the stats as updated so
far. -/
def statsLoop (stats : String → Rat) (bound : Bool) :
    List (String × Direction) → List (String × Rat) → (String → Rat)
  | [], _ => stats
  | (name, dir) :: rest, results =>
      match alookup results name with
      | some res_val =>
          let best :=
            if dir = Direction.dmin then min (stats name) res_val
            else max (stats name) res_val
          statsLoop (fupd stats name best) true rest results
      | none =>
          if bound then statsLoop stats true rest results else stats

/-- The effect of `HyperTuner.record_results` on `self.stats`: fold each
key metric's instance-result value into the best-so-far registry. -/
def record_results_stats (stats : String → Rat)
    (key_metrics : List (String × Direction))
    (results : List (String × Rat)) : String → Rat :=
  statsLoop stats false key_metrics results

/-! ## `Instance.record_results` — metric aggregation

Each execution's `execution.metrics` maps a metric name to a dict holding
that execution's `min` and `max` for the metric (computed by
`InstanceExecution.record_results`).  The aggregation pass collects, per
metric name, the list of per-execution `min` values and the list of
per-execution `max` values (a `defaultdict` in insertion order; since
`execution.metrics` is a dict, `execution.metrics[metric]` inside the
loop is the entry being iterated), then reduces each list with
`np.min/np.max/np.mean/np.median`, and finally publishes, for each key
metric present, the `median` of the direction-named aggregate into the
top-level `key_metrics` dict. -/

/-- One execution's recorded statistics for one metric:
the min and max fields of `execution.metrics[name]`. -/
structure MetricMM : Type where
  mmin : Rat
  mmax : Rat
deriving DecidableEq

/-- The slice of an `InstanceExecution` read by the aggregation pass. -/
structure ExecutionRec : Type where
  metrics : List (String × MetricMM)

/-- Append one execution's per-metric values into the accumulated
min / max lists of `exec_metrics[name]` (`defaultdict` semantics:
extend the entry if the name is present, else append a fresh entry). -/
def mmAdd (acc : List (String × List Rat × List Rat)) (name : String)
    (mn mx : Rat) : List (String × List Rat × List Rat) :=
  match acc with
  | [] => [(name, [mn], [mx])]
  | (n, mins, maxs) :: rest =>
      if n = name then (n, mins ++ [mn], maxs ++ [mx]) :: rest
      else (n, mins, maxs) :: mmAdd rest name mn mx

/-- The double loop of `Instance.record_results` building `exec_metrics`. -/
def collectExecMetrics (executions : List ExecutionRec) :
    List (String × List Rat × List Rat) :=
  executions.foldl
    (fun acc ex =>
      ex.metrics.foldl (fun acc p => mmAdd acc p.1 p.2.mmin p.2.mmax) acc)
    []

/-- `np.min` over a nonempty list (0 on the empty list, which the
aggregation never produces). -/
def npMin : List Rat → Rat
  | [] => 0
  | x :: xs => xs.foldl min x

/-- `np.max` over a nonempty list (0 on the empty list). -/
def npMax : List Rat → Rat
  | [] => 0
  | x :: xs => xs.foldl max x

/-- `np.mean`: arithmetic mean. -/
def npMean (l : List Rat) : Rat := l.sum / (l.length : Rat)

/-- Insert into a sorted list. -/
def sortedInsert (x : Rat) : List Rat → List Rat
  | [] => [x]
  | y :: ys => if x ≤ y then x :: y :: ys else y :: sortedInsert x ys

/-- Ascending insertion sort. -/
def ratSort (l : List Rat) : List Rat := l.foldr sortedInsert []

/-- `np.median`: middle element of the sorted list, or the mean of the
two middle elements for even length. -/
def npMedian (l : List Rat) : Rat :=
  let s := ratSort l
  let n := s.length
  if n % 2 = 1 then s.getD (n / 2) 0
  else (s.getD (n / 2 - 1) 0 + s.getD (n / 2) 0) / 2

/-- The four aggregate statistics `metrics[name][direction]`. -/
structure Agg : Type where
  amin : Rat
  amax : Rat
  amean : Rat
  amedian : Rat
deriving DecidableEq

/-- Reduce one collected value list into its four statistics. -/
def aggregate (data : List Rat) : Agg :=
  { amin := npMin data, amax := npMax data,
    amean := npMean data, amedian := npMedian data }

/-- Python dict insert (overwrite an existing key, else append). -/
def dinsert {α : Type} (l : List (String × α)) (k : String) (v : α) :
    List (String × α) :=
  match l with
  | [] => [(k, v)]
  | (k', v') :: rest =>
      if k' = k then (k', v) :: rest else (k', v') :: dinsert rest k v

/-- The metric part of the results document built by
`Instance.record_results`. -/
structure InstanceResults : Type where
  metrics : List (String × Agg × Agg)
  key_metrics : List (String × Rat)

/-- `Instance.record_results` (its metric aggregation and key-metric
publishing; the surrounding file writes and cloud mirroring are external
side effects carrying the same data).  `metrics[name]` holds the
aggregates of the per-execution `min` list and of the per-execution `max`
list; the top-level key-metric summary of `name` is set, for each declared key metric
whose name is present, to the `median` field of the aggregate named by
the metric's direction. -/
def instance_record_results (executions : List ExecutionRec)
    (key_metrics : List (String × Direction)) : InstanceResults :=
  let collected := collectExecMetrics executions
  let metrics := collected.map
    (fun e => (e.1, aggregate e.2.1, aggregate e.2.2))
  let km := key_metrics.foldl
    (fun acc tm =>
      match alookup metrics tm.1 with
      | some aggs =>
          dinsert acc tm.1
            ((if tm.2 = Direction.dmin then aggs.1 else aggs.2).amedian)
      | none => acc)
    []
  { metrics := metrics, key_metrics := km }

/-- Specification-side reading of the collected lists: the `min` values
recorded for metric `name` by a run of metric entries, in order. -/
def pairsMins (pairs : List (String × MetricMM)) (name : String) : List Rat :=
  (pairs.filter (fun p => p.1 == name)).map (fun p => p.2.mmin)

/-- The `max` values recorded for metric `name` by a run of entries. -/
def pairsMaxs (pairs : List (String × MetricMM)) (name : String) : List Rat :=
  (pairs.filter (fun p => p.1 == name)).map (fun p => p.2.mmax)

/-- All metric entries of all executions, in iteration order. -/
def allMetricPairs (executions : List ExecutionRec) : List (String × MetricMM) :=
  executions.foldr (fun e acc => e.metrics ++ acc) []

/-- The per-execution `min` values of metric `name` across all
executions, in order. -/
def metricMins (executions : List ExecutionRec) (name : String) : List Rat :=
  pairsMins (allMetricPairs executions) name

/-- The per-execution `max` values of metric `name` across all
executions, in order. -/
def metricMaxs (executions : List ExecutionRec) (name : String) : List Rat :=
  pairsMaxs (allMetricPairs executions) name

/-- Extend an optional collected entry by further `min`/`max` values:
the effect on one key of a run of `mmAdd` insertions. -/
def combineOpt (o : Option (List Rat × List Rat)) (l1 l2 : List Rat) :
    Option (List Rat × List Rat) :=
  match o with
  | none => if l1.isEmpty then none else some (l1, l2)
  | some e => some (e.1 ++ l1, e.2 ++ l2)

/-! ## `Instance.fit` — execution creation and resumption -/

/-- The slice of an `InstanceExecution` driving epoch counting:
`execution.num_epochs` is the number of epochs already run. -/
structure InstanceExecution : Type where
  num_epochs : Nat

/-- Modelled from the spec: `InstanceExecution.fit` (the file
`kerastuner/engine/execution.py` is not part of the sources; only its
caller `Instance.fit` is).  Training `epochs` further epochs from
`initial_epoch` reports the epoch indices
`initial_epoch, …, initial_epoch + epochs - 1` and leaves the execution's
epoch counter at `initial_epoch + epochs` — "may be resumed (continues
epoch counting) rather than recreated". -/
def execution_fit (ex : InstanceExecution) (epochs : Nat)
    (initial_epoch : Nat) : InstanceExecution × List Nat :=
  ({ ex with num_epochs := initial_epoch + epochs },
   List.range' initial_epoch epochs)

/-- The slice of an `Instance` read and written by `Instance.fit`. -/
structure KInstance : Type where
  executions : List InstanceExecution

/-- `Instance.fit(x, y, resume_execution, **kwargs)` restricted to its
execution bookkeeping: with `resume_execution` and a nonempty
`self.executions`, re-fit `self.executions[-1]` in place passing
`initial_epoch=execution.num_epochs`; otherwise `__new_execution()`
appends a fresh execution and fits it from epoch 0.  Returns the updated
instance and the epoch indices reported by the training run. -/
def instance_fit (inst : KInstance) (resume_execution : Bool)
    (epochs : Nat) : KInstance × List Nat :=
  if resume_execution && !inst.executions.isEmpty then
    let ex := inst.executions.getLastD ⟨0⟩
    let r := execution_fit ex epochs ex.num_epochs
    ({ executions := inst.executions.dropLast ++ [r.1] }, r.2)
  else
    let r := execution_fit ⟨0⟩ epochs 0
    ({ executions := inst.executions ++ [r.1] }, r.2)

/-! ## `Oracle.update_space` -/

/-- A hyperparameter: a `name` (the space's key) and its remaining payload
(kind, domain, value), opaque to `update_space`. -/
structure HyperParameter : Type where
  name : String
  payload : Int
deriving DecidableEq

/-- `Oracle.update_space(new_entries)`: `ref_names` is the name set of
`self.space` computed once, before the loop; each entry of `new_entries`
whose name is not in that set is appended to `self.space`. -/
def update_space (space : List HyperParameter)
    (new_entries : List HyperParameter) : List HyperParameter :=
  let ref_names := space.map (fun p => p.name)
  new_entries.foldl
    (fun sp p => if p.name ∈ ref_names then sp else sp ++ [p]) space

/-! ## `MultipleExecutionsTuner`

`multiple_executions_tuner.py` imports `trial`, `tuner`, `oracle`,
`hyperparameters`, `TENSORFLOW_UTILS`, `collections`, `random`, `json`
and `keras` — neither `copy` nor `np` is imported, so those two names are
unresolved at run time inside `run_trial`. -/

/-- A Python runtime error. -/
inductive PyError : Type
  | nameError : String → PyError
  | typeError : String → PyError
  | valueError : String → PyError
deriving DecidableEq

/-- The names bound at module level of `multiple_executions_tuner.py` by
its import statements. -/
def metModuleNames : List String :=
  ["trial_lib", "tuner_module", "oracle_module", "hp_module", "tf_utils",
   "collections", "random", "json", "keras"]

/-- Python name resolution against the module namespace. -/
def resolveName (n : String) : Except PyError Unit :=
  if n ∈ metModuleNames then pure ()
  else Except.error (PyError.nameError n)

/-- Python `for … in n` where `n` is an `int`: `int` is not iterable. -/
def iterPyInt (n : Int) : Except PyError (List Int) :=
  Except.error (PyError.typeError "int object is not iterable")

/-- `oracle.objective` as seen by `MultipleExecutionsTuner.__init__`:
either a single objective or a Python list/tuple of objectives. -/
inductive PyObjective : Type
  | single : String → Direction → PyObjective
  | list : List (String × Direction) → PyObjective
  | tuple : List (String × Direction) → PyObjective

/-- The fields of the tuner relevant to construction. -/
structure METuner : Type where
  objective : PyObjective
  executions_per_trial : Int
  reported_step : Int

/-- `MultipleExecutionsTuner.__init__(oracle, hypermodel,
executions_per_trial, **kwargs)`: after the base-class construction
(`engine/tuner.py`, an external collaborator here, stores its arguments),
a list or tuple `oracle.objective` raises
`ValueError` (multi-objective is not supported); otherwise
`executions_per_trial` is stored and `_reported_step` is set to 0. -/
def multiple_executions_tuner_init (objective : PyObjective)
    (executions_per_trial : Int) : Except PyError METuner :=
  match objective with
  | PyObjective.list _ =>
      Except.error (PyError.valueError "Multi-objective is not supported")
  | PyObjective.tuple _ =>
      Except.error (PyError.valueError "Multi-objective is not supported")
  | PyObjective.single _ _ =>
      Except.ok { objective := objective,
                  executions_per_trial := executions_per_trial,
                  reported_step := 0 }

/-- One execution's training history: final-epoch value per metric, as
`run_trial` would collect it were its loop reachable. -/
abbrev ExecHistory : Type := List (String × Rat)

/-- `MultipleExecutionsTuner.run_trial(trial, *fit_args, **fit_kwargs)`,
statement by statement.  Its first statement `fit_kwargs =
copy.copy(fit_kwargs)` resolves the module-level name `copy`; its loop
header `for execution in self.executions_per_trial:` iterates the
integer `self.executions_per_trial`; the averaging epilogue resolves
`np`.  On success the result would be the averaged metrics passed to
`oracle.update_trial`. -/
def run_trial (executions_per_trial : Int)
    (histories : Int → ExecHistory) : Except PyError (List (String × Rat)) := do
  _ ← resolveName "copy"
  let execs ← iterPyInt executions_per_trial
  let metrics := execs.foldl
    (fun (acc : List (String × Rat)) e => acc ++ histories e) []
  _ ← resolveName "np"
  pure (metrics.map (fun p => (p.1, p.2)))

/-! ## `kerastuner/utils.py` -/

/-- The per-model slice of `__get_model_memory_usage`: memory in gigabytes
and trainable-parameter count as a function of the batch size (the body
reads only the opaque Keras model and numpy, external collaborators). -/
def MemUsage : Type := Nat → Rat × Nat

/-- The `while 1` loop of `__compute_batch_size`, carrying the current
`batch_size` and the last bound value of `model_num_params` (`none` while
the variable is still unassigned; returning with it unassigned would be
an `UnboundLocalError`). -/
def batchSizeLoop (usage : MemUsage) (memory : Rat) (max_size : Nat)
    (batch_size : Nat) (last_params : Option Nat) :
    Except PyError (Nat × Nat) :=
  let bs := batch_size + 2
  if h : max_size ≤ bs then
    match last_params with
    | some p => Except.ok (batch_size, p)
    | none => Except.error (PyError.nameError "model_num_params")
  else
    let u := usage bs
    if memory < u.1 then Except.ok (batch_size, u.2)
    else batchSizeLoop usage memory max_size bs (some u.2)
termination_by max_size - batch_size
decreasing_by omega

/-- `__compute_batch_size(model, memory, max_size)`: grow the batch size
from 16 in steps of 2 until the next step would reach `max_size` or
exceed the memory budget; return the last accepted batch size and the
model's parameter count. -/
def compute_batch_size (usage : MemUsage) (memory : Rat)
    (max_size : Nat) : Except PyError (Nat × Nat) :=
  batchSizeLoop usage memory max_size 16 none

/-- `compute_max_batch_size(model, gpu_mem, max_size=8000)` (`max_size`
defaults to 8000 and is passed through): calls `__compute_batch_size` and
binds its result, but has no `return` statement, so the call evaluates to
Python `None`. -/
def compute_max_batch_size (usage : MemUsage) (gpu_mem : Rat)
    (max_size : Nat) : Except PyError (Option (Nat × Nat)) := do
  _ ← compute_batch_size usage gpu_mem max_size
  pure none

/-! # Theorems -/

@[simp] theorem alookup_nil {α : Type} (k : String) :
    alookup ([] : List (String × α)) k = none := rfl

@[simp] theorem alookup_cons {α : Type} (k' : String) (v : α)
    (rest : List (String × α)) (k : String) :
    alookup ((k', v) :: rest) k = if k' = k then some v else alookup rest k := rfl

/-! ## Configuration identity (C1) -/

/-- C1 counterexample: the identity digest is not invariant under Python
dict equality.  The configurations with entries a↦1, b↦2 in the two
insertion orders are equal as dicts (`get_config()` values compare equal
under `==`) yet hash to different digests, because
`__compute_model_id` hashes the order-sensitive `str()` rendering. -/
theorem compute_model_id_dict_eq_counterexample :
    pyDictEq [("a", 1), ("b", 2)] [("b", 2), ("a", 1)] = true ∧
    compute_model_id [("a", 1), ("b", 2)] ≠ compute_model_id [("b", 2), ("a", 1)] :=
  ⟨by decide, by decide⟩

/-- C1 (amended): the identity digest is a deterministic pure function of
the configuration string: any two configurations with the same `str()`
rendering — in particular, the same configuration, or configurations with
identical entries in identical insertion order, hashed in separate runs —
receive the same digest. -/
theorem compute_model_id_deterministic (a b : PyConfig)
    (h : pyStr a = pyStr b) :
    compute_model_id a = compute_model_id b := by
  unfold compute_model_id
  rw [h]

theorem compute_model_id_deterministic_witness :
    pyStr [("a", 1)] = pyStr [("a", 1)] ∧
    compute_model_id [("a", 1)] = compute_model_id [("a", 1)] :=
  ⟨rfl, compute_model_id_deterministic [("a", 1)] [("a", 1)] rfl⟩

/-! ## Trial sampling (C2, C6) -/

/-- C2: `get_random_instance` does not terminate on repeated identity
collisions.  If every call to `model_fn` yields a model whose
configuration digest is already registered in `self.instances`, then for
every iteration count `n` the loop is still running after `n` iterations:
the `fail_streak` counter is incremented but never compared against any
bound on the collision path, and no `ExhaustedSearchSpaceError` (or any
other exit) exists there. -/
theorem get_random_instance_collision_never_returns (n : Nat)
    (st : TunerState) (cfg : PyConfig)
    (h : compute_model_id cfg ∈ st.instances) :
    (get_random_instance st (List.replicate n (BuildOutcome.success cfg))).2 = none := by
  induction n generalizing st with
  | zero => rfl
  | succ k ih =>
      simp only [List.replicate, get_random_instance, h, if_pos]
      exact ih _ h

theorem get_random_instance_collision_never_returns_witness :
    compute_model_id [("a", 1)] ∈ [compute_model_id [("a", 1)]] ∧
    (get_random_instance ⟨20, 0, 0, [compute_model_id [("a", 1)]], none⟩
        (List.replicate 5 (BuildOutcome.success [("a", 1)]))).2 = none :=
  ⟨List.mem_singleton.mpr rfl,
   get_random_instance_collision_never_returns 5 _ _ (List.mem_singleton.mpr rfl)⟩

/-- C6: when an invalid model pushes the invalid-model count up to the
`max_fail_streak` limit, `get_random_instance` returns Python `None`
(the result carries no exception: the embedding's only return values are
`None` and a registered instance, matching the absence of any `raise` in
the function body). -/
theorem get_random_instance_returns_none_at_fail_streak (st : TunerState)
    (rest : List BuildOutcome)
    (h : st.max_fail_streak ≤ st.invalid_models + 1) :
    get_random_instance st (BuildOutcome.failure :: rest) =
      ({ st with invalid_models := st.invalid_models + 1 }, some none) := by
  simp only [get_random_instance, if_pos h]

theorem get_random_instance_returns_none_at_fail_streak_witness :
    (1 : Nat) ≤ 0 + 1 ∧
    get_random_instance ⟨1, 0, 0, [], none⟩ [BuildOutcome.failure] =
      (⟨1, 1, 0, [], none⟩, some none) :=
  ⟨by decide,
   get_random_instance_returns_none_at_fail_streak ⟨1, 0, 0, [], none⟩ [] (by decide)⟩

/-! ## Best-so-far stats monotonicity (C7) -/

theorem statsLoop_not_mem (results : List (String × Rat)) (name : String) :
    ∀ (kms : List (String × Direction)) (stats : String → Rat) (bound : Bool),
      name ∉ kms.map Prod.fst →
      statsLoop stats bound kms results name = stats name := by
  intro kms
  induction kms with
  | nil => intro stats bound _; rfl
  | cons tm rest ih =>
      intro stats bound hnm
      obtain ⟨n, d⟩ := tm
      simp only [List.map_cons, List.mem_cons, not_or] at hnm
      obtain ⟨hne, hrest⟩ := hnm
      simp only [statsLoop]
      cases halk : alookup results n with
      | some v =>
          dsimp only
          rw [ih _ true hrest]
          simp only [fupd]
          exact if_neg hne
      | none =>
          cases bound
          · rfl
          · exact ih _ true hrest

theorem statsLoop_min_le (results : List (String × Rat)) (name : String) :
    ∀ (kms : List (String × Direction)) (stats : String → Rat) (bound : Bool),
      (kms.map Prod.fst).Nodup →
      (name, Direction.dmin) ∈ kms →
      statsLoop stats bound kms results name ≤ stats name := by
  intro kms
  induction kms with
  | nil => intro _ _ _ h; exact absurd h (List.not_mem_nil _)
  | cons tm rest ih =>
      intro stats bound hnd hmem
      obtain ⟨n, d⟩ := tm
      simp only [List.map_cons, List.nodup_cons] at hnd
      obtain ⟨hnin, hndr⟩ := hnd
      rcases List.mem_cons.mp hmem with heq | hrest
      · injection heq with h1 h2
        subst h1
        subst h2
        have hname : name ∉ rest.map Prod.fst := hnin
        simp only [statsLoop]
        cases halk : alookup results name with
        | some v =>
            dsimp only
            rw [statsLoop_not_mem results name rest _ true hname]
            simp [fupd]
        | none =>
            cases bound
            · exact le_refl _
            · exact le_of_eq (statsLoop_not_mem results name rest _ true hname)
      · have hne : name ≠ n := by
          intro h
          subst h
          exact hnin (List.mem_map.mpr ⟨(name, Direction.dmin), hrest, rfl⟩)
        simp only [statsLoop]
        cases halk : alookup results n with
        | some v =>
            dsimp only
            have hh := ih (fupd stats n
              (if d = Direction.dmin then min (stats n) v else max (stats n) v))
              true hndr hrest
            rwa [show fupd stats n
              (if d = Direction.dmin then min (stats n) v else max (stats n) v) name
                = stats name from if_neg hne] at hh
        | none =>
            cases bound
            · exact le_refl _
            · exact ih stats true hndr hrest

theorem statsLoop_max_ge (results : List (String × Rat)) (name : String) :
    ∀ (kms : List (String × Direction)) (stats : String → Rat) (bound : Bool),
      (kms.map Prod.fst).Nodup →
      (name, Direction.dmax) ∈ kms →
      stats name ≤ statsLoop stats bound kms results name := by
  intro kms
  induction kms with
  | nil => intro _ _ _ h; exact absurd h (List.not_mem_nil _)
  | cons tm rest ih =>
      intro stats bound hnd hmem
      obtain ⟨n, d⟩ := tm
      simp only [List.map_cons, List.nodup_cons] at hnd
      obtain ⟨hnin, hndr⟩ := hnd
      rcases List.mem_cons.mp hmem with heq | hrest
      · injection heq with h1 h2
        subst h1
        subst h2
        have hname : name ∉ rest.map Prod.fst := hnin
        simp only [statsLoop]
        cases halk : alookup results name with
        | some v =>
            dsimp only
            rw [statsLoop_not_mem results name rest _ true hname]
            simp [fupd]
        | none =>
            cases bound
            · exact le_refl _
            · exact le_of_eq (statsLoop_not_mem results name rest _ true hname).symm
      · have hne : name ≠ n := by
          intro h
          subst h
          exact hnin (List.mem_map.mpr ⟨(name, Direction.dmax), hrest, rfl⟩)
        simp only [statsLoop]
        cases halk : alookup results n with
        | some v =>
            dsimp only
            have hh := ih (fupd stats n
              (if d = Direction.dmin then min (stats n) v else max (stats n) v))
              true hndr hrest
            rwa [show fupd stats n
              (if d = Direction.dmin then min (stats n) v else max (stats n) v) name
                = stats name from if_neg hne] at hh
        | none =>
            cases bound
            · exact le_refl _
            · exact ih stats true hndr hrest

/-- C7: `HyperTuner.record_results` updates the best-so-far stats registry
monotonically.  For pairwise-distinct key-metric names (as produced by
`__init__`), a key metric declared with direction min never sees its
stored stats value increase in a call, and one declared with direction
max never sees it decrease — whether or not the metric appears in the
instance results, and even when the display code's `NameError` aborts the
loop early. -/
theorem record_results_stats_monotone (stats : String → Rat)
    (key_metrics : List (String × Direction)) (results : List (String × Rat))
    (name : String) (hnd : (key_metrics.map Prod.fst).Nodup) :
    ((name, Direction.dmin) ∈ key_metrics →
        record_results_stats stats key_metrics results name ≤ stats name) ∧
    ((name, Direction.dmax) ∈ key_metrics →
        stats name ≤ record_results_stats stats key_metrics results name) :=
  ⟨fun h => statsLoop_min_le results name key_metrics stats false hnd h,
   fun h => statsLoop_max_ge results name key_metrics stats false hnd h⟩

theorem record_results_stats_monotone_witness :
    (([("loss", Direction.dmin), ("acc", Direction.dmax)].map Prod.fst).Nodup) ∧
    ("loss", Direction.dmin) ∈ [("loss", Direction.dmin), ("acc", Direction.dmax)] ∧
    record_results_stats (fun _ => 5)
        [("loss", Direction.dmin), ("acc", Direction.dmax)]
        [("loss", 3), ("acc", 7)] "loss" ≤ (5 : Rat) :=
  ⟨by decide, by decide,
   (record_results_stats_monotone (fun _ => 5)
      [("loss", Direction.dmin), ("acc", Direction.dmax)]
      [("loss", 3), ("acc", 7)] "loss" (by decide)).1 (by decide)⟩

/-! ## `MultipleExecutionsTuner` (C3, C8) -/

/-- C3: `run_trial` cannot run a single execution, let alone
`executions_per_trial` of them: its first statement already raises
`NameError` (the module never imports `copy`), and were that repaired its
loop header raises `TypeError` (it iterates the integer
`self.executions_per_trial`).  The call therefore errors before any model
is built or fitted and never reports averaged metrics to the Oracle. -/
theorem run_trial_always_raises (executions_per_trial : Int)
    (histories : Int → ExecHistory) :
    run_trial executions_per_trial histories =
      Except.error (PyError.nameError "copy") := rfl

/-- C8: constructing a `MultipleExecutionsTuner` whose oracle carries a
list or tuple objective (a multi-objective request) raises `ValueError`
at construction time; no tuner object is produced, so the first objective
is never silently used. -/
theorem multi_objective_fails_at_construction
    (objs : List (String × Direction)) (ept : Int) :
    multiple_executions_tuner_init (PyObjective.list objs) ept =
        Except.error (PyError.valueError "Multi-objective is not supported") ∧
    multiple_executions_tuner_init (PyObjective.tuple objs) ept =
        Except.error (PyError.valueError "Multi-objective is not supported") :=
  ⟨rfl, rfl⟩

/-! ## Instance metric aggregation (C4) -/

theorem combineOpt_nil (o : Option (List Rat × List Rat)) :
    combineOpt o [] [] = o := by
  cases o with
  | none => rfl
  | some e => simp [combineOpt]

theorem combineOpt_append (o : Option (List Rat × List Rat))
    (l1 l2 m1 m2 : List Rat) (h : l1 = [] → l2 = []) :
    combineOpt (combineOpt o l1 l2) m1 m2 = combineOpt o (l1 ++ m1) (l2 ++ m2) := by
  cases o with
  | none =>
      cases l1 with
      | nil => simp [h rfl, combineOpt]
      | cons a l1' => simp [combineOpt]
  | some e => simp [combineOpt]

theorem alookup_mmAdd (acc : List (String × List Rat × List Rat))
    (n : String) (mn mx : Rat) (k : String) :
    alookup (mmAdd acc n mn mx) k =
      if n = k then combineOpt (alookup acc k) [mn] [mx] else alookup acc k := by
  induction acc with
  | nil =>
      by_cases hnk : n = k <;> simp [mmAdd, combineOpt, alookup, hnk]
  | cons e rest ih =>
      obtain ⟨n', mins, maxs⟩ := e
      by_cases hn' : n' = n
      · subst hn'
        by_cases hnk : n' = k <;> simp [mmAdd, alookup, hnk, combineOpt]
      · by_cases hn'k : n' = k
        · subst hn'k
          have hne : ¬ n = n' := fun h => hn' h.symm
          simp [mmAdd, hn', alookup, hne]
        · simp [mmAdd, hn', alookup, hn'k, ih]

theorem pairsMins_nil_imp (pairs : List (String × MetricMM)) (k : String)
    (h : pairsMins pairs k = []) : pairsMaxs pairs k = [] := by
  unfold pairsMins at h
  unfold pairsMaxs
  rw [List.map_eq_nil_iff] at h
  rw [h]
  rfl

theorem alookup_foldl_pairs (k : String) :
    ∀ (pairs : List (String × MetricMM)) (acc : List (String × List Rat × List Rat)),
      alookup (pairs.foldl (fun a p => mmAdd a p.1 p.2.mmin p.2.mmax) acc) k =
        combineOpt (alookup acc k) (pairsMins pairs k) (pairsMaxs pairs k) := by
  intro pairs
  induction pairs with
  | nil => intro acc; simp [pairsMins, pairsMaxs, combineOpt_nil]
  | cons p rest ih =>
      intro acc
      rw [List.foldl_cons, ih, alookup_mmAdd]
      by_cases hk : p.1 = k
      · rw [if_pos hk]
        rw [combineOpt_append _ _ _ _ _ (by intro h; cases h)]
        simp [pairsMins, pairsMaxs, List.filter_cons, hk]
      · rw [if_neg hk]
        have hbk : (p.1 == k) = false := by simp [hk]
        simp [pairsMins, pairsMaxs, List.filter_cons, hbk]

theorem alookup_foldl_execs (k : String) :
    ∀ (executions : List ExecutionRec) (acc : List (String × List Rat × List Rat)),
      alookup (executions.foldl
          (fun acc ex => ex.metrics.foldl (fun a p => mmAdd a p.1 p.2.mmin p.2.mmax) acc)
          acc) k =
        combineOpt (alookup acc k) (metricMins executions k) (metricMaxs executions k) := by
  intro executions
  induction executions with
  | nil =>
      intro acc
      simp [metricMins, metricMaxs, allMetricPairs, pairsMins, pairsMaxs, combineOpt_nil]
  | cons e rest ih =>
      intro acc
      rw [List.foldl_cons, ih, alookup_foldl_pairs]
      rw [combineOpt_append _ _ _ _ _ (pairsMins_nil_imp e.metrics k)]
      have h1 : metricMins (e :: rest) k = pairsMins e.metrics k ++ metricMins rest k := by
        simp [metricMins, allMetricPairs, pairsMins, List.filter_append]
      have h2 : metricMaxs (e :: rest) k = pairsMaxs e.metrics k ++ metricMaxs rest k := by
        simp [metricMaxs, allMetricPairs, pairsMaxs, List.filter_append]
      rw [h1, h2]

theorem alookup_collect (executions : List ExecutionRec) (k : String) :
    alookup (collectExecMetrics executions) k =
      if (metricMins executions k).isEmpty then none
      else some (metricMins executions k, metricMaxs executions k) := by
  rw [collectExecMetrics, alookup_foldl_execs]
  rfl

theorem alookup_map_entry {α β : Type} (f : α → β) :
    ∀ (l : List (String × α)) (k : String),
      alookup (l.map (fun e => (e.1, f e.2))) k = (alookup l k).map f := by
  intro l
  induction l with
  | nil => intro k; rfl
  | cons e rest ih =>
      intro k
      by_cases hk : e.1 = k <;> simp [alookup, hk, ih]

theorem alookup_dinsert {α : Type} (l : List (String × α)) (k : String) (v : α) :
    alookup (dinsert l k v) k = some v := by
  induction l with
  | nil => simp [dinsert, alookup]
  | cons e rest ih =>
      obtain ⟨k', v'⟩ := e
      by_cases hk : k' = k
      · simp [dinsert, hk, alookup]
      · simp [dinsert, hk, alookup, ih]

theorem alookup_dinsert_ne {α : Type} (l : List (String × α)) (k k' : String)
    (v : α) (h : k ≠ k') :
    alookup (dinsert l k v) k' = alookup l k' := by
  induction l with
  | nil => simp [dinsert, alookup, h]
  | cons e rest ih =>
      obtain ⟨k0, v0⟩ := e
      by_cases hk : k0 = k
      · subst hk
        simp [dinsert, alookup, h]
      · simp [dinsert, hk, alookup, ih]

theorem kmFold_not_mem (metrics : List (String × Agg × Agg)) (name : String) :
    ∀ (kms : List (String × Direction)) (acc : List (String × Rat)),
      name ∉ kms.map Prod.fst →
      alookup (kms.foldl
          (fun acc tm =>
            match alookup metrics tm.1 with
            | some aggs =>
                dinsert acc tm.1
                  ((if tm.2 = Direction.dmin then aggs.1 else aggs.2).amedian)
            | none => acc)
          acc) name = alookup acc name := by
  intro kms
  induction kms with
  | nil => intro acc _; rfl
  | cons tm rest ih =>
      intro acc hnm
      simp only [List.map_cons, List.mem_cons, not_or] at hnm
      obtain ⟨hne, hrest⟩ := hnm
      rw [List.foldl_cons]
      cases halk : alookup metrics tm.1 with
      | some aggs =>
          dsimp only
          rw [ih _ hrest, alookup_dinsert_ne _ _ _ _ (fun h => hne h.symm)]
      | none =>
          exact ih _ hrest

theorem kmFold_mem (metrics : List (String × Agg × Agg)) (name : String)
    (dir : Direction) (aggs : Agg × Agg)
    (hmet : alookup metrics name = some aggs) :
    ∀ (kms : List (String × Direction)) (acc : List (String × Rat)),
      (kms.map Prod.fst).Nodup →
      (name, dir) ∈ kms →
      alookup (kms.foldl
          (fun acc tm =>
            match alookup metrics tm.1 with
            | some aggs =>
                dinsert acc tm.1
                  ((if tm.2 = Direction.dmin then aggs.1 else aggs.2).amedian)
            | none => acc)
          acc) name =
        some ((if dir = Direction.dmin then aggs.1 else aggs.2).amedian) := by
  intro kms
  induction kms with
  | nil => intro _ _ h; exact absurd h (List.not_mem_nil _)
  | cons tm rest ih =>
      intro acc hnd hmem
      obtain ⟨n, d⟩ := tm
      simp only [List.map_cons, List.nodup_cons] at hnd
      obtain ⟨hnin, hndr⟩ := hnd
      rcases List.mem_cons.mp hmem with heq | hrest
      · injection heq with h1 h2
        subst h1
        subst h2
        rw [List.foldl_cons]
        dsimp only
        rw [hmet]
        dsimp only
        rw [kmFold_not_mem metrics name rest _ hnin, alookup_dinsert]
      · have hne : n ≠ name := by
          intro h
          exact hnin (h ▸ List.mem_map.mpr ⟨(name, dir), hrest, rfl⟩)
        rw [List.foldl_cons]
        cases halk : alookup metrics n with
        | some aggs' => exact ih _ hndr hrest
        | none => exact ih _ hndr hrest

/-- C4: `Instance.record_results` (i) aggregates, for every metric name
recorded by at least one execution, the per-execution `min` values and
the per-execution `max` values into the four statistics min, max, mean
and median; and (ii) for each declared key metric (a list with
pairwise-distinct names) whose name appears in the aggregated metrics, it
publishes the `median` of the aggregate selected by the declared
direction as the top-level summary value. -/
theorem instance_record_results_aggregates (executions : List ExecutionRec)
    (key_metrics : List (String × Direction)) (name : String) (dir : Direction)
    (hkm : (key_metrics.map Prod.fst).Nodup) :
    (metricMins executions name ≠ [] →
      alookup (instance_record_results executions key_metrics).metrics name =
        some
          ({ amin := npMin (metricMins executions name),
             amax := npMax (metricMins executions name),
             amean := npMean (metricMins executions name),
             amedian := npMedian (metricMins executions name) },
           { amin := npMin (metricMaxs executions name),
             amax := npMax (metricMaxs executions name),
             amean := npMean (metricMaxs executions name),
             amedian := npMedian (metricMaxs executions name) })) ∧
    ((name, dir) ∈ key_metrics →
      ∀ aggMin aggMax : Agg,
        alookup (instance_record_results executions key_metrics).metrics name =
          some (aggMin, aggMax) →
        alookup (instance_record_results executions key_metrics).key_metrics name =
          some ((if dir = Direction.dmin then aggMin else aggMax).amedian)) := by
  have hmap :
      alookup (instance_record_results executions key_metrics).metrics name =
        (alookup (collectExecMetrics executions) name).map
          (fun pr => (aggregate pr.1, aggregate pr.2)) := by
    simp only [instance_record_results]
    exact alookup_map_entry (fun pr => (aggregate pr.1, aggregate pr.2))
      (collectExecMetrics executions) name
  constructor
  · intro hne
    rw [hmap, alookup_collect]
    rw [if_neg (by simpa [List.isEmpty_iff] using hne)]
    rfl
  · intro hmem aggMin aggMax hlook
    exact kmFold_mem (instance_record_results executions key_metrics).metrics
      name dir (aggMin, aggMax) hlook key_metrics [] hkm hmem

theorem instance_record_results_aggregates_witness :
    (([("loss", Direction.dmin)].map Prod.fst).Nodup) ∧
    metricMins [⟨[("loss", ⟨1, 3⟩)]⟩, ⟨[("loss", ⟨2, 4⟩)]⟩, ⟨[("loss", ⟨5, 6⟩)]⟩]
        "loss" ≠ [] ∧
    ("loss", Direction.dmin) ∈ [("loss", Direction.dmin)] ∧
    alookup (instance_record_results
        [⟨[("loss", ⟨1, 3⟩)]⟩, ⟨[("loss", ⟨2, 4⟩)]⟩, ⟨[("loss", ⟨5, 6⟩)]⟩]
        [("loss", Direction.dmin)]).key_metrics "loss" = some (2 : Rat) := by
  have h := instance_record_results_aggregates
      [⟨[("loss", ⟨1, 3⟩)]⟩, ⟨[("loss", ⟨2, 4⟩)]⟩, ⟨[("loss", ⟨5, 6⟩)]⟩]
      [("loss", Direction.dmin)] "loss" Direction.dmin (by decide)
  have h1 := h.1 (by decide)
  exact ⟨by decide, by decide, by decide, (h.2 (by decide) _ _ h1).trans (by decide)⟩

/-! ## Execution resumption (C5) -/

/-- C5: `Instance.fit` with `resume_execution=True` on an instance with at
least one prior execution reuses the most recent execution record (the
executions list keeps its length) and continues from
`initial_epoch = execution.num_epochs`, so every reported epoch index is
at least the epochs already run; with `resume_execution=False`, or when
no prior execution exists, a new execution is created and appended. -/
theorem instance_fit_resume_spec (pre : List InstanceExecution)
    (ex : InstanceExecution) (inst : KInstance) (resume : Bool) (epochs : Nat)
    (hfresh : resume = false ∨ inst.executions = []) :
    ((instance_fit ⟨pre ++ [ex]⟩ true epochs).1.executions.length = pre.length + 1 ∧
      ∀ i ∈ (instance_fit ⟨pre ++ [ex]⟩ true epochs).2, ex.num_epochs ≤ i) ∧
    (instance_fit inst resume epochs).1.executions.length =
      inst.executions.length + 1 := by
  have hne : ((pre ++ [ex] : List InstanceExecution).isEmpty) = false := by
    cases pre <;> rfl
  refine ⟨⟨?_, ?_⟩, ?_⟩
  · simp [instance_fit, execution_fit, hne]
  · intro i hi
    simp only [instance_fit, execution_fit, hne, Bool.not_false, Bool.and_true,
      if_true] at hi
    rw [List.getLastD_concat] at hi
    exact (List.mem_range'_1.mp hi).1
  · rcases hfresh with h | h
    · subst h
      simp [instance_fit]
    · have hemp : inst.executions.isEmpty = true := by simp [h]
      simp [instance_fit, hemp]

theorem instance_fit_resume_spec_witness :
    (false = false ∨ (KInstance.mk []).executions = []) ∧
    (((instance_fit ⟨[⟨2⟩]⟩ true 3).1.executions.length = 1 ∧
        ∀ i ∈ (instance_fit ⟨[⟨2⟩]⟩ true 3).2,
          (InstanceExecution.mk 2).num_epochs ≤ i) ∧
      (instance_fit ⟨[]⟩ false 3).1.executions.length =
        (KInstance.mk []).executions.length + 1) :=
  ⟨Or.inl rfl,
   instance_fit_resume_spec [] ⟨2⟩ ⟨[]⟩ false 3 (Or.inl rfl)⟩

/-! ## Search-space merging (C9) -/

/-- C9 counterexample: `update_space` can break name uniqueness.  Starting
from the empty space (whose names are trivially unique), merging two new
entries that share the name a appends both — the membership test uses the
name set captured before the loop — so the resulting space holds the name
a twice. -/
theorem update_space_duplicate_names_counterexample :
    (([] : List HyperParameter).map HyperParameter.name).Nodup ∧
    ¬ (((update_space [] [⟨"a", 1⟩, ⟨"a", 2⟩]).map HyperParameter.name).Nodup) :=
  ⟨by decide, by decide⟩

theorem update_space_foldl_filter (ref_names : List String)
    (ne : List HyperParameter) :
    ∀ acc : List HyperParameter,
      ne.foldl (fun sp p => if p.name ∈ ref_names then sp else sp ++ [p]) acc =
        acc ++ ne.filter (fun p => !ref_names.contains p.name) := by
  induction ne with
  | nil => intro acc; simp
  | cons p rest ih =>
      intro acc
      by_cases hp : p.name ∈ ref_names
      · simp [List.foldl_cons, hp, ih, List.filter_cons, List.elem_iff.mpr hp]
      · have hc : ref_names.contains p.name = false := by
          cases hcc : ref_names.contains p.name
          · rfl
          · exact absurd (List.elem_iff.mp hcc) hp
        simp [List.foldl_cons, hp, ih, List.filter_cons, hc]

/-- C9 (amended): `Oracle.update_space` appends exactly those parameters
of `new_entries` whose names are absent from the space at the start of
the call, in their given order, and leaves every pre-existing entry in
place unchanged; when additionally the names within `new_entries` are
pairwise distinct (and the space's names were unique), the names of the
resulting space remain unique. -/
theorem update_space_spec (space new_entries : List HyperParameter)
    (h1 : (space.map HyperParameter.name).Nodup)
    (h2 : (new_entries.map HyperParameter.name).Nodup) :
    update_space space new_entries =
      space ++ new_entries.filter
        (fun p => !(space.map HyperParameter.name).contains p.name) ∧
    ((update_space space new_entries).map HyperParameter.name).Nodup := by
  have heq := update_space_foldl_filter (space.map HyperParameter.name)
    new_entries space
  refine ⟨heq, ?_⟩
  rw [update_space] at *
  rw [heq, List.map_append, List.nodup_append]
  refine ⟨h1, ?_, ?_⟩
  · exact h2.sublist ((List.filter_sublist _).map _)
  · intro a ha hb
    obtain ⟨p, hp, rfl⟩ := List.mem_map.mp hb
    have hmem := (List.mem_filter.mp hp).2
    simp only [Bool.not_eq_true'] at hmem
    exact absurd ha (by simpa [List.elem_iff] using hmem)

theorem update_space_spec_witness :
    (([⟨"a", 1⟩] : List HyperParameter).map HyperParameter.name).Nodup ∧
    (([⟨"b", 2⟩] : List HyperParameter).map HyperParameter.name).Nodup ∧
    (update_space [⟨"a", 1⟩] [⟨"b", 2⟩] =
        [⟨"a", 1⟩] ++ ([⟨"b", 2⟩] : List HyperParameter).filter
          (fun p => !(([⟨"a", 1⟩] : List HyperParameter).map
              HyperParameter.name).contains p.name) ∧
      ((update_space [⟨"a", 1⟩] [⟨"b", 2⟩]).map HyperParameter.name).Nodup) :=
  ⟨by decide, by decide,
   update_space_spec [⟨"a", 1⟩] [⟨"b", 2⟩] (by decide) (by decide)⟩

/-! ## Batch-size utility (C10) -/

theorem batchSizeLoop_some_ok (usage : MemUsage) (memory : Rat) :
    ∀ (n max_size bs p : Nat), max_size - bs = n →
      ∃ r, batchSizeLoop usage memory max_size bs (some p) = Except.ok r := by
  intro n
  induction n using Nat.strong_induction_on with
  | _ n ih =>
      intro max_size bs p hn
      rw [batchSizeLoop]
      split
      · exact ⟨_, rfl⟩
      · by_cases hm : memory < (usage (bs + 2)).1
        · simp only [hm, if_true]
          exact ⟨_, rfl⟩
        · simp only [hm, if_false]
          exact ih (max_size - (bs + 2)) (by omega) max_size (bs + 2) _ rfl

/-- C10: `compute_max_batch_size`, called with its default
`max_size = 8000`, returns Python `None` for every model (any memory-usage
profile) and every `gpu_mem`: the internal `__compute_batch_size` call
completes (its loop always calls the memory estimator at least once, so
`model_num_params` is bound when it returns), but the public function has
no `return` statement, so its value is `None` and the computed batch size
is unobservable to the caller. -/
theorem compute_max_batch_size_returns_none (usage : MemUsage) (gpu_mem : Rat) :
    compute_max_batch_size usage gpu_mem 8000 = Except.ok none := by
  unfold compute_max_batch_size compute_batch_size
  rw [batchSizeLoop]
  split
  · omega
  · by_cases hm : gpu_mem < (usage (16 + 2)).1
    · simp only [hm, if_true]
      rfl
    · simp only [hm, if_false]
      obtain ⟨r, hr⟩ := batchSizeLoop_some_ok usage gpu_mem (8000 - 18) 8000 18 _ rfl
      rw [hr]
      rfl

end KerasTuner
